import Mathlib

/-!
Verification of the Renosims building-surface pipeline
(`src/ApiMachine_2_works.py`).

The Python source classifies building surface triangles ("particles") by the
z-component of their normal, aggregates per-class vertex/index buffers for
rendering, builds a flat catalog of per-triangle records shown in a table, and
sorts that table by column.  Real numbers of the source are embedded as `ℚ`;
a Python dict with optional fields becomes a structure of `Option` fields
(`dict.get(k, d)` is `Option.getD`, `dict[k]` is a fallible lookup that raises
`KeyError` on a missing key, embedded in the `Except` monad).
-/

namespace Renosims

/-- The closed set of surface classes returned by `classify_surface`. -/
inductive SurfaceType where
  | Roof
  | Floor
  | Wall
deriving DecidableEq, Repr

/-- Embedding of `classify_surface(nz, epsilon=1e-6)`:
`'Roof' if nz > epsilon, 'Floor' if nz < -epsilon, else 'Wall'`. -/
def classify_surface (nz : ℚ) (epsilon : ℚ := 1e-6) : SurfaceType :=
  if nz > epsilon then .Roof
  else if nz < -epsilon then .Floor
  else .Wall

/-- One particle (triangle) object of the input JSON: every field may be
absent, exactly as a Python dict key may be absent. -/
structure Particle where
  x0 : Option ℚ := none
  x1 : Option ℚ := none
  x2 : Option ℚ := none
  y0 : Option ℚ := none
  y1 : Option ℚ := none
  y2 : Option ℚ := none
  z0 : Option ℚ := none
  z1 : Option ℚ := none
  z2 : Option ℚ := none
  nz : Option ℚ := none
  area : Option ℚ := none
deriving DecidableEq, Repr

/-- One building object of the input JSON: `ehr` identifier and `particles`
list, both possibly absent (`building_data.get('ehr', 'Unknown')`,
`building_data.get('particles', [])`). -/
structure Building where
  ehr : Option String := none
  particles : Option (List Particle) := none
deriving DecidableEq, Repr

/-- One row of `surface_info_list` (and of the table): building identifier,
surface type, area, and the particle's zero-based position in its building. -/
structure SurfaceInfo where
  buildingId : String
  surfaceType : SurfaceType
  area : ℚ
  index : Nat
deriving DecidableEq, Repr

/-- The per-class buffers of `visualize_data`: the entry
`{'x': [], 'y': [], 'z': [], 'i': [], 'j': [], 'k': []}` of the `coords`
dict for one surface type. -/
structure Coords where
  x : List ℚ := []
  y : List ℚ := []
  z : List ℚ := []
  i : List Nat := []
  j : List Nat := []
  k : List Nat := []
deriving DecidableEq, Repr

/-- The mutable state of the loop in `visualize_data`: the three `coords`
entries and the growing `surface_info_list`. -/
structure VizState where
  roof : Coords := {}
  wall : Coords := {}
  floor : Coords := {}
  infos : List SurfaceInfo := []
deriving DecidableEq, Repr

/-- `coords[surface_type]`. -/
def VizState.getC (s : VizState) : SurfaceType → Coords
  | .Roof => s.roof
  | .Wall => s.wall
  | .Floor => s.floor

/-- Writing back `coords[surface_type]` after mutation. -/
def VizState.setC (s : VizState) : SurfaceType → Coords → VizState
  | .Roof, c => { s with roof := c }
  | .Wall, c => { s with wall := c }
  | .Floor, c => { s with floor := c }

/-- `particle[key]`: a mandatory dict lookup; a missing key raises
`KeyError(key)`. -/
def requireField (key : String) : Option ℚ → Except String ℚ
  | some v => .ok v
  | none => .error key

/-- The geometry appends for one particle:
`idx0 = len(c['x'])`, extend `x`/`y`/`z` by the three vertex coordinates and
append `(idx0, idx0+1, idx0+2)` to `i`/`j`/`k`. -/
def addTriangle (c : Coords) (x0 x1 x2 y0 y1 y2 z0 z1 z2 : ℚ) : Coords :=
  let idx0 := c.x.length
  { x := c.x ++ [x0, x1, x2]
    y := c.y ++ [y0, y1, y2]
    z := c.z ++ [z0, z1, z2]
    i := c.i ++ [idx0]
    j := c.j ++ [idx0 + 1]
    k := c.k ++ [idx0 + 2] }

/-- The nine vertex coordinates of one triangle, as read by the three
unpacking assignments of `visualize_data`. -/
structure Tri where
  x0 : ℚ
  x1 : ℚ
  x2 : ℚ
  y0 : ℚ
  y1 : ℚ
  y2 : ℚ
  z0 : ℚ
  z1 : ℚ
  z2 : ℚ
deriving DecidableEq, Repr

/-- The three unpacking assignments
`x0, x1, x2 = particle['x0'], particle['x1'], particle['x2']` (and `y`, `z`):
all nine lookups happen before anything is appended, and the first missing
key raises. -/
def getCoords (p : Particle) : Except String Tri := do
  let x0 ← requireField "x0" p.x0
  let x1 ← requireField "x1" p.x1
  let x2 ← requireField "x2" p.x2
  let y0 ← requireField "y0" p.y0
  let y1 ← requireField "y1" p.y1
  let y2 ← requireField "y2" p.y2
  let z0 ← requireField "z0" p.z0
  let z1 ← requireField "z1" p.z1
  let z2 ← requireField "z2" p.z2
  pure ⟨x0, x1, x2, y0, y1, y2, z0, z1, z2⟩

/-- The body of the inner loop of `visualize_data` for one particle:
`nz = particle.get('nz', 0)`, `area = particle.get('area', 0)`, classify,
append the surface-info row, then read the nine mandatory coordinates
(raising on a missing one) and append the triangle to its class's buffers. -/
def stepParticle (buildingId : String) (idx : Nat) (p : Particle) (s : VizState) :
    Except String VizState := do
  let nz := p.nz.getD 0
  let area := p.area.getD 0
  let st := classify_surface nz
  let s := { s with infos := s.infos ++ [SurfaceInfo.mk buildingId st area idx] }
  let t ← getCoords p
  pure (s.setC st (addTriangle (s.getC st) t.x0 t.x1 t.x2 t.y0 t.y1 t.y2 t.z0 t.z1 t.z2))

/-- The body of the outer loop of `visualize_data` for one building:
`building_id = building_data.get('ehr', 'Unknown')`,
`particles = building_data.get('particles', [])`, then the enumerated inner
loop over the particles. -/
def stepBuilding (s : VizState) (b : Building) : Except String VizState :=
  (b.particles.getD []).enum.foldlM
    (fun s ip => stepParticle (b.ehr.getD "Unknown") ip.1 ip.2 s) s

/-- Embedding of `visualize_data`: run the two nested loops over the decoded
input, then return the surface-info rows (the table contents) and the list of
per-class mesh buffers, built in the `coords` dict's insertion order
Roof, Wall, Floor and keeping only classes with data (`if c['x']:`).
A `KeyError` escaping the loop aborts the whole call, so on error neither
table rows nor meshes are produced. -/
def visualize_data (data : List Building) :
    Except String (List SurfaceInfo × List (SurfaceType × Coords)) := do
  let s ← data.foldlM stepBuilding {}
  let meshes := [SurfaceType.Roof, SurfaceType.Wall, SurfaceType.Floor].filterMap
    (fun t => if (s.getC t).x.isEmpty then none else some (t, s.getC t))
  pure (s.infos, meshes)

/-- The surface-info row `stepParticle` appends for a particle. -/
def recordFor (buildingId : String) (idx : Nat) (p : Particle) : SurfaceInfo :=
  ⟨buildingId, classify_surface (p.nz.getD 0), p.area.getD 0, idx⟩

/-- The rows contributed by one building, in particle order. -/
def buildingRecords (b : Building) : List SurfaceInfo :=
  (b.particles.getD []).enum.map (fun ip => recordFor (b.ehr.getD "Unknown") ip.1 ip.2)

/-- The catalog the spec describes: one row per particle, buildings in input
order, particles in order within each building, `index` the zero-based
position within the building. -/
def catalogOf (data : List Building) : List SurfaceInfo :=
  data.flatMap buildingRecords

/-- A particle has all nine mandatory vertex coordinates. -/
def hasAllCoords (p : Particle) : Bool :=
  p.x0.isSome && p.x1.isSome && p.x2.isSome &&
  p.y0.isSome && p.y1.isSome && p.y2.isSome &&
  p.z0.isSome && p.z1.isSome && p.z2.isSome

/-- Every particle of every building has all nine coordinates. -/
def allCoordsPresent (data : List Building) : Bool :=
  data.all (fun b => (b.particles.getD []).all hasAllCoords)

/-- The mesh-buffer invariant: three vertices per triangle, and the `t`-th
index triple is `(3t, 3t+1, 3t+2)`. -/
def CoordsInv (c : Coords) : Prop :=
  c.x.length = 3 * c.i.length ∧ c.y.length = c.x.length ∧ c.z.length = c.x.length ∧
  c.i = (List.range c.i.length).map (fun t => 3 * t) ∧
  c.j = (List.range c.i.length).map (fun t => 3 * t + 1) ∧
  c.k = (List.range c.i.length).map (fun t => 3 * t + 2)

/-- How many catalog rows carry surface type `t`. -/
def countType (t : SurfaceType) (l : List SurfaceInfo) : Nat :=
  l.countP (fun r => decide (r.surfaceType = t))

/-- Loop invariant of `visualize_data`: every class buffer satisfies
`CoordsInv` and holds exactly one index triple per catalog row of its class. -/
def StateInv (s : VizState) : Prop :=
  ∀ t, CoordsInv (s.getC t) ∧ (s.getC t).i.length = countType t s.infos

/-- The text shown in the table's Surface Type column. -/
def surfaceTypeText : SurfaceType → String
  | .Roof => "Roof"
  | .Wall => "Wall"
  | .Floor => "Floor"

/-- The comparison `sortby` actually performs, ascending: Python's stable
`data.sort()` on the pairs `(value, child)` compares them lexicographically,
value first, tree item identifier second (identifiers are modelled as the
naturals, in insertion order). -/
def pyLe {K : Type} [LinearOrder K] (key : SurfaceInfo → K) (a b : SurfaceInfo × Nat) : Prop :=
  key a.1 < key b.1 ∨ (key a.1 = key b.1 ∧ a.2 ≤ b.2)

instance {K : Type} [LinearOrder K] (key : SurfaceInfo → K) : DecidableRel (pyLe key) :=
  fun a b => by unfold pyLe; infer_instance

/-- The reversed comparison used when `descending` is set
(`data.sort(reverse=descending)` reverses every comparison). -/
def pyGe {K : Type} [LinearOrder K] (key : SurfaceInfo → K) (a b : SurfaceInfo × Nat) : Prop :=
  pyLe key b a

instance {K : Type} [LinearOrder K] (key : SurfaceInfo → K) : DecidableRel (pyGe key) :=
  fun a b => by unfold pyGe; infer_instance

/-- Embedding of `sortby(tree, col, descending)`: collect the rows as
`(key, item)` pairs in current display order and stable-sort them by the pair
(Python's `list.sort` is stable; `List.insertionSort` with a total preorder
computes the same stable sort).  The row payload is carried along with its
tree item identifier. -/
def sortby {K : Type} [LinearOrder K] (key : SurfaceInfo → K)
    (rows : List (SurfaceInfo × Nat)) (descending : Bool) : List (SurfaceInfo × Nat) :=
  if descending then rows.insertionSort (pyGe key)
  else rows.insertionSort (pyLe key)

/-- `sortby` on the Area column: `float(item[0])` makes the key numeric. -/
def sortbyArea (rows : List (SurfaceInfo × Nat)) (descending : Bool) :
    List (SurfaceInfo × Nat) :=
  sortby (fun r => r.area) rows descending

/-- `sortby` on the Building ID column: textual, lexicographic keys. -/
def sortbyBuildingId (rows : List (SurfaceInfo × Nat)) (descending : Bool) :
    List (SurfaceInfo × Nat) :=
  sortby (fun r => r.buildingId) rows descending

/-- `sortby` on the Surface Type column: textual, lexicographic keys. -/
def sortbySurfaceType (rows : List (SurfaceInfo × Nat)) (descending : Bool) :
    List (SurfaceInfo × Nat) :=
  sortby (fun r => surfaceTypeText r.surfaceType) rows descending

/-! Concrete inputs used to instantiate the theorems below. -/

/-- A complete particle: a roof triangle (`nz = 1 > 1e-6`) of area 4. -/
def sampleParticle : Particle :=
  { x0 := some 0, x1 := some 1, x2 := some 0
    y0 := some 0, y1 := some 0, y2 := some 1
    z0 := some 0, z1 := some 0, z2 := some 0
    nz := some 1, area := some 4 }

/-- One building, identifier "B1", holding `sampleParticle`. -/
def sampleBuilding : Building :=
  { ehr := some "B1", particles := some [sampleParticle] }

/-- A one-building input list. -/
def sampleData : List Building := [sampleBuilding]

/-- The single catalog row `visualize_data sampleData` produces. -/
def sampleRecord : SurfaceInfo := ⟨"B1", .Roof, 4, 0⟩

/-- The Roof buffer `visualize_data sampleData` produces. -/
def sampleCoords : Coords :=
  { x := [0, 1, 0], y := [0, 0, 1], z := [0, 0, 0], i := [0], j := [1], k := [2] }

/-- The mesh list `visualize_data sampleData` produces. -/
def sampleMeshes : List (SurfaceType × Coords) := [(SurfaceType.Roof, sampleCoords)]

/-- A particle with all nine coordinates but neither `nz` nor `area`. -/
def defaultedParticle : Particle :=
  { x0 := some 0, x1 := some 1, x2 := some 0
    y0 := some 0, y1 := some 0, y2 := some 1
    z0 := some 0, z1 := some 0, z2 := some 0 }

/-- A building with no `ehr` identifier holding `defaultedParticle`. -/
def unknownBuilding : Building := { particles := some [defaultedParticle] }

/-- Input exercising both the "Unknown" identifier default and the
`nz`/`area` defaults. -/
def unknownData : List Building := [unknownBuilding]

/-- A particle with every field except `area` — scenario D of the spec. -/
def noAreaParticle : Particle :=
  { x0 := some 0, x1 := some 1, x2 := some 0
    y0 := some 0, y1 := some 0, y2 := some 1
    z0 := some 0, z1 := some 0, z2 := some 0
    nz := some 1 }

/-- One building, identifier "B2", holding `noAreaParticle`. -/
def noAreaBuilding : Building :=
  { ehr := some "B2", particles := some [noAreaParticle] }

/-- The input of the C4 counterexample. -/
def noAreaData : List Building := [noAreaBuilding]

/-- A particle whose `x0` coordinate is missing. -/
def noX0Particle : Particle :=
  { x1 := some 1, x2 := some 0
    y0 := some 0, y1 := some 0, y2 := some 1
    z0 := some 0, z1 := some 0, z2 := some 0
    nz := some 1, area := some 2 }

/-- Input with a particle missing a mandatory coordinate. -/
def noX0Data : List Building :=
  [{ ehr := some "B3", particles := some [noX0Particle] }]

/-- Two table rows with equal Area keys, payloads distinguished by `index`. -/
def tieRow0 : SurfaceInfo := ⟨"B1", .Wall, 5, 0⟩

/-- Second of the two equal-key rows. -/
def tieRow1 : SurfaceInfo := ⟨"B1", .Wall, 5, 1⟩

/-- A display order holding the two equal-key rows, item 0 first. -/
def tieRows : List (SurfaceInfo × Nat) := [(tieRow0, 0), (tieRow1, 1)]

/-- The catalog row `visualize_data unknownData` produces: identifier
defaulted to "Unknown", `nz` defaulted to 0 (hence Wall), area defaulted
to 0. -/
def unknownRecord : SurfaceInfo := ⟨"Unknown", .Wall, 0, 0⟩

/-- The catalog row `visualize_data noAreaData` produces: the missing `area`
is silently replaced by 0. -/
def noAreaRecord : SurfaceInfo := ⟨"B2", .Roof, 0, 0⟩

theorem classify_default_epsilon : (1e-6 : ℚ) = 1 / 1000000 := by norm_num

theorem classify_one : classify_surface 1 = .Roof := by
  unfold classify_surface
  norm_num

theorem classify_zero : classify_surface 0 = .Wall := by
  unfold classify_surface
  norm_num

/-- C1: for every rational `nz`, `classify_surface` returns Roof exactly when
`nz > epsilon`, Floor exactly when `nz < -epsilon`, and Wall exactly on the
closed band `-epsilon ≤ nz ≤ epsilon` (so the boundary values `±epsilon` are
Wall, the three cases are mutually exclusive and exhaustive, and the function
is total with no error case). -/
theorem classify_surface_total_and_boundary (nz : ℚ) :
    (classify_surface nz = .Roof ↔ nz > 1e-6) ∧
    (classify_surface nz = .Floor ↔ nz < -(1e-6 : ℚ)) ∧
    (classify_surface nz = .Wall ↔ (-(1e-6 : ℚ) ≤ nz ∧ nz ≤ 1e-6)) ∧
    classify_surface (1e-6 : ℚ) = .Wall ∧ classify_surface (-(1e-6 : ℚ)) = .Wall := by
  have heps : (0 : ℚ) < 1e-6 := by norm_num
  refine ⟨?_, ?_, ?_, ?_, ?_⟩ <;> unfold classify_surface <;>
    split_ifs with h1 h2 <;> simp_all <;> linarith

/-- C10: classification is antisymmetric under negation of `nz`: negating the
normal swaps Roof and Floor and fixes Wall. -/
theorem classify_surface_neg (nz : ℚ) :
    (classify_surface (-nz) = .Floor ↔ classify_surface nz = .Roof) ∧
    (classify_surface (-nz) = .Roof ↔ classify_surface nz = .Floor) ∧
    (classify_surface (-nz) = .Wall ↔ classify_surface nz = .Wall) := by
  refine ⟨?_, ?_, ?_⟩ <;> unfold classify_surface <;>
    split_ifs with h1 h2 h3 h4 <;> simp_all <;> linarith

theorem getC_setC (s : VizState) (t u : SurfaceType) (c : Coords) :
    (s.setC t c).getC u = if u = t then c else s.getC u := by
  cases t <;> cases u <;> simp [VizState.getC, VizState.setC]

theorem infos_setC (s : VizState) (t : SurfaceType) (c : Coords) :
    (s.setC t c).infos = s.infos := by
  cases t <;> rfl

theorem getC_withInfos (s : VizState) (l : List SurfaceInfo) (t : SurfaceType) :
    VizState.getC { s with infos := l } t = s.getC t := by
  cases t <;> rfl

theorem getCoords_ok_of_hasAllCoords (p : Particle) (h : hasAllCoords p = true) :
    ∃ t, getCoords p = .ok t := by
  unfold hasAllCoords at h
  simp only [Bool.and_eq_true, Option.isSome_iff_exists] at h
  obtain ⟨⟨⟨⟨⟨⟨⟨⟨⟨x0, hx0⟩, x1, hx1⟩, x2, hx2⟩, y0, hy0⟩, y1, hy1⟩, y2, hy2⟩,
    z0, hz0⟩, z1, hz1⟩, z2, hz2⟩ := h
  refine ⟨⟨x0, x1, x2, y0, y1, y2, z0, z1, z2⟩, ?_⟩
  unfold getCoords
  rw [hx0, hx1, hx2, hy0, hy1, hy2, hz0, hz1, hz2]
  rfl

theorem getCoords_error_of_not_hasAllCoords (p : Particle) (h : hasAllCoords p = false) :
    ∃ e, getCoords p = .error e := by
  cases hx0 : p.x0 with
  | none => exact ⟨"x0", by unfold getCoords; rw [hx0]; rfl⟩
  | some x0 =>
  cases hx1 : p.x1 with
  | none => exact ⟨"x1", by unfold getCoords; rw [hx0, hx1]; rfl⟩
  | some x1 =>
  cases hx2 : p.x2 with
  | none => exact ⟨"x2", by unfold getCoords; rw [hx0, hx1, hx2]; rfl⟩
  | some x2 =>
  cases hy0 : p.y0 with
  | none => exact ⟨"y0", by unfold getCoords; rw [hx0, hx1, hx2, hy0]; rfl⟩
  | some y0 =>
  cases hy1 : p.y1 with
  | none => exact ⟨"y1", by unfold getCoords; rw [hx0, hx1, hx2, hy0, hy1]; rfl⟩
  | some y1 =>
  cases hy2 : p.y2 with
  | none => exact ⟨"y2", by unfold getCoords; rw [hx0, hx1, hx2, hy0, hy1, hy2]; rfl⟩
  | some y2 =>
  cases hz0 : p.z0 with
  | none => exact ⟨"z0", by unfold getCoords; rw [hx0, hx1, hx2, hy0, hy1, hy2, hz0]; rfl⟩
  | some z0 =>
  cases hz1 : p.z1 with
  | none => exact ⟨"z1", by unfold getCoords; rw [hx0, hx1, hx2, hy0, hy1, hy2, hz0, hz1]; rfl⟩
  | some z1 =>
  cases hz2 : p.z2 with
  | none =>
    exact ⟨"z2", by unfold getCoords; rw [hx0, hx1, hx2, hy0, hy1, hy2, hz0, hz1, hz2]; rfl⟩
  | some z2 =>
    exfalso
    unfold hasAllCoords at h
    rw [hx0, hx1, hx2, hy0, hy1, hy2, hz0, hz1, hz2] at h
    simp at h

theorem stepParticle_ok_shape {bid : String} {idx : Nat} {p : Particle} {s s' : VizState}
    (h : stepParticle bid idx p s = .ok s') :
    ∃ t, getCoords p = .ok t ∧
      s' = VizState.setC { s with infos := s.infos ++ [recordFor bid idx p] }
            (classify_surface (p.nz.getD 0))
            (addTriangle
              (VizState.getC { s with infos := s.infos ++ [recordFor bid idx p] }
                (classify_surface (p.nz.getD 0)))
              t.x0 t.x1 t.x2 t.y0 t.y1 t.y2 t.z0 t.z1 t.z2) := by
  unfold stepParticle at h
  cases hg : getCoords p with
  | error e => rw [hg] at h; exact Except.noConfusion h
  | ok t =>
    rw [hg] at h
    injection h with h
    exact ⟨t, rfl, h.symm⟩

theorem stepParticle_ok_infos {bid : String} {idx : Nat} {p : Particle} {s s' : VizState}
    (h : stepParticle bid idx p s = .ok s') :
    s'.infos = s.infos ++ [recordFor bid idx p] := by
  obtain ⟨t, _, rfl⟩ := stepParticle_ok_shape h
  rw [infos_setC]

theorem stepParticle_ok_of_hasAllCoords (bid : String) (idx : Nat) {p : Particle}
    (s : VizState) (h : hasAllCoords p = true) :
    ∃ s', stepParticle bid idx p s = .ok s' := by
  obtain ⟨t, ht⟩ := getCoords_ok_of_hasAllCoords p h
  refine ⟨VizState.setC { s with infos := s.infos ++ [recordFor bid idx p] }
      (classify_surface (p.nz.getD 0))
      (addTriangle
        (VizState.getC { s with infos := s.infos ++ [recordFor bid idx p] }
          (classify_surface (p.nz.getD 0)))
        t.x0 t.x1 t.x2 t.y0 t.y1 t.y2 t.z0 t.z1 t.z2), ?_⟩
  unfold stepParticle
  rw [ht]
  rfl

theorem stepParticle_error_of_not_hasAllCoords (bid : String) (idx : Nat) {p : Particle}
    (s : VizState) (h : hasAllCoords p = false) :
    ∃ e, stepParticle bid idx p s = .error e := by
  obtain ⟨e, he⟩ := getCoords_error_of_not_hasAllCoords p h
  refine ⟨e, ?_⟩
  unfold stepParticle
  rw [he]
  rfl

theorem addTriangle_inv {c : Coords} (h : CoordsInv c) (x0 x1 x2 y0 y1 y2 z0 z1 z2 : ℚ) :
    CoordsInv (addTriangle c x0 x1 x2 y0 y1 y2 z0 z1 z2) := by
  obtain ⟨hx, hy, hz, hi, hj, hk⟩ := h
  unfold addTriangle CoordsInv
  have hlen : (c.i ++ [c.x.length]).length = c.i.length + 1 := by simp
  refine ⟨?_, ?_, ?_, ?_, ?_, ?_⟩ <;>
    simp only [hlen, List.length_append, List.length_cons, List.length_nil,
      List.range_succ, List.map_append, List.map_cons, List.map_nil]
  · omega
  · simp [hy]
  · simp [hz]
  · rw [hx, ← hi]
  · rw [hx, ← hj]
  · rw [hx, ← hk]

theorem countType_append (t : SurfaceType) (l : List SurfaceInfo) (r : SurfaceInfo) :
    countType t (l ++ [r]) =
      countType t l + if r.surfaceType = t then 1 else 0 := by
  unfold countType
  rw [List.countP_append, List.countP_cons]
  simp

theorem stepParticle_inv {bid : String} {idx : Nat} {p : Particle} {s s' : VizState}
    (hs : StateInv s) (h : stepParticle bid idx p s = .ok s') : StateInv s' := by
  obtain ⟨t, hg, rfl⟩ := stepParticle_ok_shape h
  intro u
  rw [getC_setC, infos_setC]
  by_cases hu : u = classify_surface (p.nz.getD 0)
  · rw [if_pos hu, getC_withInfos, countType_append]
    constructor
    · exact addTriangle_inv ((hs (classify_surface (p.nz.getD 0))).1) _ _ _ _ _ _ _ _ _
    · rw [hu]
      have hrt : (recordFor bid idx p).surfaceType = classify_surface (p.nz.getD 0) := rfl
      rw [hrt, if_pos rfl]
      unfold addTriangle
      simp [(hs (classify_surface (p.nz.getD 0))).2]
  · rw [if_neg hu, getC_withInfos, countType_append]
    constructor
    · exact (hs u).1
    · have : (recordFor bid idx p).surfaceType = classify_surface (p.nz.getD 0) := rfl
      rw [this, if_neg (fun hh => hu hh.symm)]
      simp [(hs u).2]

theorem foldlM_ok_inv {σ α : Type} (f : σ → α → Except String σ) (P : σ → Prop)
    (hf : ∀ s a s', P s → f s a = .ok s' → P s') :
    ∀ (l : List α) {s s' : σ}, P s → l.foldlM f s = .ok s' → P s' := by
  intro l
  induction l with
  | nil =>
    intro s s' hP h
    rw [List.foldlM_nil] at h
    injection h with h
    exact h ▸ hP
  | cons a l ih =>
    intro s s' hP h
    rw [List.foldlM_cons] at h
    cases hfa : f s a with
    | error e => rw [hfa] at h; exact Except.noConfusion h
    | ok s1 => rw [hfa] at h; exact ih (hf s a s1 hP hfa) h

theorem foldParticles_infos (bid : String) :
    ∀ (l : List (Nat × Particle)) (s s' : VizState),
      l.foldlM (fun s ip => stepParticle bid ip.1 ip.2 s) s = .ok s' →
      s'.infos = s.infos ++ l.map (fun ip => recordFor bid ip.1 ip.2) := by
  intro l
  induction l with
  | nil =>
    intro s s' h
    rw [List.foldlM_nil] at h
    injection h with h
    rw [← h]
    simp
  | cons a l ih =>
    intro s s' h
    rw [List.foldlM_cons] at h
    cases hfa : stepParticle bid a.1 a.2 s with
    | error e => rw [hfa] at h; exact Except.noConfusion h
    | ok s1 =>
      rw [hfa] at h
      rw [ih s1 s' h, stepParticle_ok_infos hfa]
      simp

theorem stepBuilding_infos {s s' : VizState} {b : Building}
    (h : stepBuilding s b = .ok s') :
    s'.infos = s.infos ++ buildingRecords b := by
  unfold stepBuilding at h
  exact foldParticles_infos _ _ _ _ h

theorem foldBuildings_infos :
    ∀ (data : List Building) (s s' : VizState),
      data.foldlM stepBuilding s = .ok s' →
      s'.infos = s.infos ++ catalogOf data := by
  intro data
  induction data with
  | nil =>
    intro s s' h
    rw [List.foldlM_nil] at h
    injection h with h
    rw [← h]
    simp [catalogOf]
  | cons b data ih =>
    intro s s' h
    rw [List.foldlM_cons] at h
    cases hb : stepBuilding s b with
    | error e => rw [hb] at h; exact Except.noConfusion h
    | ok s1 =>
      rw [hb] at h
      rw [ih s1 s' h, stepBuilding_infos hb]
      simp [catalogOf, List.flatMap_cons]

theorem stepBuilding_inv {s s' : VizState} {b : Building}
    (hs : StateInv s) (h : stepBuilding s b = .ok s') : StateInv s' := by
  unfold stepBuilding at h
  exact foldlM_ok_inv _ StateInv (fun _ _ _ hP hf => stepParticle_inv hP hf) _ hs h

theorem foldBuildings_inv {data : List Building} {s s' : VizState}
    (hs : StateInv s) (h : data.foldlM stepBuilding s = .ok s') : StateInv s' :=
  foldlM_ok_inv _ StateInv (fun _ _ _ hP hf => stepBuilding_inv hP hf) data hs h

theorem initial_inv : StateInv {} := by
  intro t
  have hc : VizState.getC {} t = ({} : Coords) := by cases t <;> rfl
  rw [hc]
  constructor
  · unfold CoordsInv
    refine ⟨rfl, rfl, rfl, rfl, rfl, rfl⟩
  · rfl

theorem visualize_ok_elim {data : List Building} {infos : List SurfaceInfo}
    {meshes : List (SurfaceType × Coords)}
    (h : visualize_data data = .ok (infos, meshes)) :
    ∃ s, data.foldlM stepBuilding {} = .ok s ∧ StateInv s ∧ infos = s.infos ∧
      meshes = [SurfaceType.Roof, SurfaceType.Wall, SurfaceType.Floor].filterMap
        (fun t => if (s.getC t).x.isEmpty then none else some (t, s.getC t)) := by
  unfold visualize_data at h
  cases hf : List.foldlM stepBuilding {} data with
  | error e => rw [hf] at h; exact Except.noConfusion h
  | ok s =>
    rw [hf] at h
    injection h with h
    obtain ⟨h1, h2⟩ := Prod.mk.injEq _ _ _ _ ▸ h
    exact ⟨s, rfl, foldBuildings_inv initial_inv hf, h1.symm, h2.symm⟩

theorem visualize_catalog_eq {data : List Building} {infos : List SurfaceInfo}
    {meshes : List (SurfaceType × Coords)}
    (h : visualize_data data = .ok (infos, meshes)) : infos = catalogOf data := by
  obtain ⟨s, hf, _, h1, _⟩ := visualize_ok_elim h
  rw [h1, foldBuildings_infos data {} s hf]
  rfl

theorem meshes_mem_iff {s : VizState} {t : SurfaceType} {c : Coords} :
    ((t, c) ∈ [SurfaceType.Roof, SurfaceType.Wall, SurfaceType.Floor].filterMap
        (fun u => if (s.getC u).x.isEmpty then none else some (u, s.getC u))) ↔
      ((s.getC t).x.isEmpty = false ∧ c = s.getC t) := by
  rw [List.mem_filterMap]
  constructor
  · rintro ⟨u, _, hu⟩
    by_cases hempty : (s.getC u).x.isEmpty
    · rw [if_pos hempty] at hu
      exact Option.noConfusion hu
    · rw [if_neg hempty] at hu
      injection hu with hu
      obtain ⟨h1, h2⟩ := Prod.mk.injEq _ _ _ _ ▸ hu
      subst h1
      simp only [Bool.not_eq_true] at hempty
      exact ⟨hempty, h2.symm⟩
  · rintro ⟨hne, rfl⟩
    refine ⟨t, ?_, ?_⟩
    · cases t <;> simp
    · rw [if_neg (by simp [hne])]

theorem visualize_meshes_class_iff {data : List Building} {infos : List SurfaceInfo}
    {meshes : List (SurfaceType × Coords)}
    (h : visualize_data data = .ok (infos, meshes)) (t : SurfaceType) :
    (∃ c, (t, c) ∈ meshes) ↔ ∃ r ∈ infos, r.surfaceType = t := by
  obtain ⟨s, hf, hinv, hinfos, hmeshes⟩ := visualize_ok_elim h
  subst hinfos hmeshes
  constructor
  · rintro ⟨c, hc⟩
    obtain ⟨hne, rfl⟩ := meshes_mem_iff.mp hc
    have hxlen : (s.getC t).x.length ≠ 0 := by
      cases hx : (s.getC t).x with
      | nil => rw [hx] at hne; exact absurd hne (by simp)
      | cons a l => simp
    have hcount : 0 < countType t s.infos := by
      have h3 := (hinv t).1.1
      have h4 := (hinv t).2
      omega
    obtain ⟨r, hr, hrt⟩ := List.countP_pos_iff.mp hcount
    exact ⟨r, hr, of_decide_eq_true hrt⟩
  · rintro ⟨r, hr, hrt⟩
    refine ⟨s.getC t, meshes_mem_iff.mpr ⟨?_, rfl⟩⟩
    have hcount : 0 < countType t s.infos :=
      List.countP_pos_iff.mpr ⟨r, hr, decide_eq_true hrt⟩
    have h3 := (hinv t).1.1
    have h4 := (hinv t).2
    have hxlen : (s.getC t).x.length ≠ 0 := by omega
    cases hx : (s.getC t).x with
    | nil => exact absurd (by rw [hx]; rfl) hxlen
    | cons a l => rfl

theorem foldParticles_ok (bid : String) :
    ∀ (l : List (Nat × Particle)) (s : VizState),
      (∀ ip ∈ l, hasAllCoords ip.2 = true) →
      ∃ s', l.foldlM (fun s ip => stepParticle bid ip.1 ip.2 s) s = .ok s' := by
  intro l
  induction l with
  | nil => exact fun s _ => ⟨s, by rw [List.foldlM_nil]; rfl⟩
  | cons a l ih =>
    intro s h
    obtain ⟨s1, hs1⟩ :=
      stepParticle_ok_of_hasAllCoords bid a.1 s (h a (by simp))
    obtain ⟨s', hs'⟩ := ih s1 (fun ip hip => h ip (by simp [hip]))
    exact ⟨s', by rw [List.foldlM_cons, hs1]; exact hs'⟩

theorem stepBuilding_ok (s : VizState) (b : Building)
    (h : (b.particles.getD []).all hasAllCoords = true) :
    ∃ s', stepBuilding s b = .ok s' := by
  unfold stepBuilding
  refine foldParticles_ok _ _ s (fun ip hip => ?_)
  have hmem : ip.2 ∈ (b.particles.getD []).enum.map Prod.snd := List.mem_map_of_mem _ hip
  rw [List.enum_map_snd] at hmem
  exact List.all_eq_true.mp h ip.2 hmem

theorem foldBuildings_ok :
    ∀ (data : List Building) (s : VizState), allCoordsPresent data = true →
      ∃ s', data.foldlM stepBuilding s = .ok s' := by
  intro data
  induction data with
  | nil => exact fun s _ => ⟨s, by rw [List.foldlM_nil]; rfl⟩
  | cons b data ih =>
    intro s h
    unfold allCoordsPresent at h
    rw [List.all_cons, Bool.and_eq_true] at h
    obtain ⟨s1, hs1⟩ := stepBuilding_ok s b h.1
    obtain ⟨s', hs'⟩ := ih s1 h.2
    exact ⟨s', by rw [List.foldlM_cons, hs1]; exact hs'⟩

theorem visualize_ok_of_allCoords (data : List Building)
    (h : allCoordsPresent data = true) :
    ∃ s : VizState, visualize_data data = .ok
      (s.infos, [SurfaceType.Roof, SurfaceType.Wall, SurfaceType.Floor].filterMap
        (fun t => if (s.getC t).x.isEmpty then none else some (t, s.getC t))) := by
  obtain ⟨s, hs⟩ := foldBuildings_ok data {} h
  exact ⟨s, by unfold visualize_data; rw [hs]; rfl⟩

theorem foldParticles_error (bid : String) :
    ∀ (l : List (Nat × Particle)) (s : VizState),
      (∃ ip ∈ l, hasAllCoords ip.2 = false) →
      ∃ e, l.foldlM (fun s ip => stepParticle bid ip.1 ip.2 s) s = .error e := by
  intro l
  induction l with
  | nil => rintro s ⟨ip, hip, _⟩; exact absurd hip (by simp)
  | cons a l ih =>
    rintro s ⟨ip, hip, hbad⟩
    rcases List.mem_cons.mp hip with rfl | hmem
    · obtain ⟨e, he⟩ := stepParticle_error_of_not_hasAllCoords bid ip.1 s hbad
      exact ⟨e, by rw [List.foldlM_cons, he]; rfl⟩
    · cases hstep : stepParticle bid a.1 a.2 s with
      | error e => exact ⟨e, by rw [List.foldlM_cons, hstep]; rfl⟩
      | ok s1 =>
        obtain ⟨e, he⟩ := ih s1 ⟨ip, hmem, hbad⟩
        exact ⟨e, by rw [List.foldlM_cons, hstep]; exact he⟩

theorem stepBuilding_error (s : VizState) (b : Building)
    (h : (b.particles.getD []).all hasAllCoords = false) :
    ∃ e, stepBuilding s b = .error e := by
  obtain ⟨p, hp, hbad⟩ := List.all_eq_false.mp h
  have hp2 : p ∈ (b.particles.getD []).enum.map Prod.snd := by
    rw [List.enum_map_snd]; exact hp
  obtain ⟨ip, hip, hsnd⟩ := List.mem_map.mp hp2
  unfold stepBuilding
  exact foldParticles_error _ _ s ⟨ip, hip, by rw [hsnd]; exact Bool.not_eq_true _ ▸ hbad⟩

theorem foldBuildings_error :
    ∀ (data : List Building) (s : VizState), allCoordsPresent data = false →
      ∃ e, data.foldlM stepBuilding s = .error e := by
  intro data
  induction data with
  | nil => intro s h; exact absurd h (by simp [allCoordsPresent])
  | cons b data ih =>
    intro s h
    unfold allCoordsPresent at h
    rw [List.all_cons] at h
    by_cases hb : (b.particles.getD []).all hasAllCoords = true
    · rw [hb, Bool.true_and] at h
      obtain ⟨s1, hs1⟩ := stepBuilding_ok s b hb
      obtain ⟨e, he⟩ := ih s1 h
      exact ⟨e, by rw [List.foldlM_cons, hs1]; exact he⟩
    · obtain ⟨e, he⟩ := stepBuilding_error s b (Bool.not_eq_true _ ▸ hb)
      exact ⟨e, by rw [List.foldlM_cons, he]; rfl⟩

theorem visualize_error_of_missingCoord (data : List Building)
    (h : allCoordsPresent data = false) :
    ∃ e, visualize_data data = .error e := by
  obtain ⟨e, he⟩ := foldBuildings_error data {} h
  exact ⟨e, by unfold visualize_data; rw [he]; rfl⟩

theorem run_sample : visualize_data sampleData = .ok ([sampleRecord], sampleMeshes) := by
  simp only [visualize_data, sampleData, sampleBuilding, sampleParticle, stepBuilding,
    stepParticle, getCoords, requireField, addTriangle, recordFor, classify_one,
    List.foldlM, List.enum, List.enumFrom, Option.getD]
  rfl

theorem run_unknown :
    visualize_data unknownData = .ok ([unknownRecord], [(SurfaceType.Wall, sampleCoords)]) := by
  simp only [visualize_data, unknownData, unknownBuilding, defaultedParticle, stepBuilding,
    stepParticle, getCoords, requireField, classify_zero,
    List.foldlM, List.enum, List.enumFrom, Option.getD]
  rfl

theorem run_noArea :
    visualize_data noAreaData = .ok ([noAreaRecord], [(SurfaceType.Roof, sampleCoords)]) := by
  simp only [visualize_data, noAreaData, noAreaBuilding, noAreaParticle, stepBuilding,
    stepParticle, getCoords, requireField, classify_one,
    List.foldlM, List.enum, List.enumFrom, Option.getD]
  rfl

theorem CoordsInv_elim {c : Coords} (h : CoordsInv c) :
    c.x.length = 3 * c.i.length ∧ c.y.length = c.x.length ∧ c.z.length = c.x.length ∧
    c.j.length = c.i.length ∧ c.k.length = c.i.length ∧
    ∀ n, n < c.i.length →
      c.i[n]? = some (3 * n) ∧ c.j[n]? = some (3 * n + 1) ∧ c.k[n]? = some (3 * n + 2) := by
  obtain ⟨hx, hy, hz, hi, hj, hk⟩ := h
  refine ⟨hx, hy, hz, ?_, ?_, ?_⟩
  · rw [hj, List.length_map, List.length_range]
  · rw [hk, List.length_map, List.length_range]
  · intro n hn
    refine ⟨?_, ?_, ?_⟩
    · conv_lhs => rw [hi]
      rw [List.getElem?_map, List.getElem?_range hn]
      rfl
    · conv_lhs => rw [hj]
      rw [List.getElem?_map, List.getElem?_range hn]
      rfl
    · conv_lhs => rw [hk]
      rw [List.getElem?_map, List.getElem?_range hn]
      rfl

theorem pyLe_total {K : Type} [LinearOrder K] (key : SurfaceInfo → K)
    (a b : SurfaceInfo × Nat) : pyLe key a b ∨ pyLe key b a := by
  unfold pyLe
  rcases lt_trichotomy (key a.1) (key b.1) with h | h | h
  · exact Or.inl (Or.inl h)
  · rcases Nat.le_total a.2 b.2 with h2 | h2
    · exact Or.inl (Or.inr ⟨h, h2⟩)
    · exact Or.inr (Or.inr ⟨h.symm, h2⟩)
  · exact Or.inr (Or.inl h)

theorem pyLe_trans {K : Type} [LinearOrder K] (key : SurfaceInfo → K)
    (a b c : SurfaceInfo × Nat) (h1 : pyLe key a b) (h2 : pyLe key b c) : pyLe key a c := by
  unfold pyLe at h1 h2 ⊢
  rcases h1 with h1 | ⟨h1e, h1n⟩
  · rcases h2 with h2 | ⟨h2e, _⟩
    · exact Or.inl (h1.trans h2)
    · exact Or.inl (h2e ▸ h1)
  · rcases h2 with h2 | ⟨h2e, h2n⟩
    · exact Or.inl (h1e ▸ h2)
    · exact Or.inr ⟨h1e.trans h2e, h1n.trans h2n⟩

theorem sortby_false_eq {K : Type} [LinearOrder K] (key : SurfaceInfo → K)
    (rows : List (SurfaceInfo × Nat)) :
    sortby key rows false = rows.insertionSort (pyLe key) := by
  unfold sortby
  rfl

theorem sortby_true_eq {K : Type} [LinearOrder K] (key : SurfaceInfo → K)
    (rows : List (SurfaceInfo × Nat)) :
    sortby key rows true = rows.insertionSort (pyGe key) := by
  unfold sortby
  rfl

theorem sortby_false_perm {K : Type} [LinearOrder K] (key : SurfaceInfo → K)
    (rows : List (SurfaceInfo × Nat)) : (sortby key rows false).Perm rows := by
  rw [sortby_false_eq]
  exact List.perm_insertionSort _ _

theorem sortby_true_perm {K : Type} [LinearOrder K] (key : SurfaceInfo → K)
    (rows : List (SurfaceInfo × Nat)) : (sortby key rows true).Perm rows := by
  rw [sortby_true_eq]
  exact List.perm_insertionSort _ _

theorem sortby_false_sorted {K : Type} [LinearOrder K] (key : SurfaceInfo → K)
    (rows : List (SurfaceInfo × Nat)) :
    (sortby key rows false).Pairwise (pyLe key) := by
  rw [sortby_false_eq]
  haveI : IsTotal (SurfaceInfo × Nat) (pyLe key) := ⟨pyLe_total key⟩
  haveI : IsTrans (SurfaceInfo × Nat) (pyLe key) :=
    ⟨fun a b c => pyLe_trans key a b c⟩
  exact List.sorted_insertionSort _ _

theorem sortby_true_sorted {K : Type} [LinearOrder K] (key : SurfaceInfo → K)
    (rows : List (SurfaceInfo × Nat)) :
    (sortby key rows true).Pairwise (pyGe key) := by
  rw [sortby_true_eq]
  haveI : IsTotal (SurfaceInfo × Nat) (pyGe key) :=
    ⟨fun a b => pyLe_total key b a⟩
  haveI : IsTrans (SurfaceInfo × Nat) (pyGe key) :=
    ⟨fun a b c h1 h2 => pyLe_trans key c b a h2 h1⟩
  exact List.sorted_insertionSort _ _

/-- C2: on every successful run, every per-class buffer in the result has
three vertex coordinates per index triple (for `x`, `y` and `z` alike), and
the `n`-th index triple is exactly `(3n, 3n+1, 3n+2)` — the positions of the
three vertices appended for the `n`-th triangle of that class, so a triple
never references vertices of a different triangle. -/
theorem mesh_buffer_index_contiguity {data : List Building} {infos : List SurfaceInfo}
    {meshes : List (SurfaceType × Coords)} {t : SurfaceType} {c : Coords}
    (hok : visualize_data data = .ok (infos, meshes)) (hmem : (t, c) ∈ meshes) :
    c.x.length = 3 * c.i.length ∧ c.y.length = c.x.length ∧ c.z.length = c.x.length ∧
    c.j.length = c.i.length ∧ c.k.length = c.i.length ∧
    ∀ n, n < c.i.length →
      c.i[n]? = some (3 * n) ∧ c.j[n]? = some (3 * n + 1) ∧ c.k[n]? = some (3 * n + 2) := by
  obtain ⟨s, _, hinv, _, hmeshes⟩ := visualize_ok_elim hok
  subst hmeshes
  obtain ⟨_, rfl⟩ := meshes_mem_iff.mp hmem
  exact CoordsInv_elim (hinv t).1

/-- Witness for C2: the single-roof-triangle input `sampleData`. -/
theorem mesh_buffer_index_contiguity_witness :
    visualize_data sampleData = .ok ([sampleRecord], sampleMeshes) ∧
    (SurfaceType.Roof, sampleCoords) ∈ sampleMeshes ∧
    (sampleCoords.x.length = 3 * sampleCoords.i.length ∧
     sampleCoords.y.length = sampleCoords.x.length ∧
     sampleCoords.z.length = sampleCoords.x.length ∧
     sampleCoords.j.length = sampleCoords.i.length ∧
     sampleCoords.k.length = sampleCoords.i.length ∧
     ∀ n, n < sampleCoords.i.length →
       sampleCoords.i[n]? = some (3 * n) ∧ sampleCoords.j[n]? = some (3 * n + 1) ∧
       sampleCoords.k[n]? = some (3 * n + 2)) := by
  have hmem : (SurfaceType.Roof, sampleCoords) ∈ sampleMeshes := by decide
  exact ⟨run_sample, hmem, mesh_buffer_index_contiguity run_sample hmem⟩

/-- C5: on every successful run the catalog holds exactly one record per
particle — buildings in input order, particles in input order within each
building, each record carrying the building identifier (defaulted to
"Unknown"), the classification of its `nz`, its area and its zero-based
position within its building — and its length is the total particle count.
`visualize_data` is a function of `data`, so the output is deterministic. -/
theorem catalog_complete_ordered {data : List Building} {infos : List SurfaceInfo}
    {meshes : List (SurfaceType × Coords)}
    (h : visualize_data data = .ok (infos, meshes)) :
    infos = data.flatMap (fun b => (b.particles.getD []).enum.map
      (fun ip => SurfaceInfo.mk (b.ehr.getD "Unknown")
        (classify_surface (ip.2.nz.getD 0)) (ip.2.area.getD 0) ip.1)) ∧
    infos.length = (data.map (fun b => (b.particles.getD []).length)).sum := by
  have h1 := visualize_catalog_eq h
  have h2 : catalogOf data = data.flatMap (fun b => (b.particles.getD []).enum.map
      (fun ip => SurfaceInfo.mk (b.ehr.getD "Unknown")
        (classify_surface (ip.2.nz.getD 0)) (ip.2.area.getD 0) ip.1)) := rfl
  refine ⟨h1.trans h2, ?_⟩
  rw [h1]
  unfold catalogOf
  rw [List.length_flatMap]
  have hlen : (List.length ∘ buildingRecords) = fun b => (b.particles.getD []).length := by
    funext b
    show (buildingRecords b).length = _
    unfold buildingRecords
    rw [List.length_map, List.enum_length]
  rw [hlen]

/-- Witness for C5 at `sampleData`. -/
theorem catalog_complete_ordered_witness :
    visualize_data sampleData = .ok ([sampleRecord], sampleMeshes) ∧
    ([sampleRecord] = sampleData.flatMap (fun b => (b.particles.getD []).enum.map
      (fun ip => SurfaceInfo.mk (b.ehr.getD "Unknown")
        (classify_surface (ip.2.nz.getD 0)) (ip.2.area.getD 0) ip.1)) ∧
     [sampleRecord].length = (sampleData.map (fun b => (b.particles.getD []).length)).sum) :=
  ⟨run_sample, catalog_complete_ordered run_sample⟩

/-- C7: on every successful run a surface class appears in the mesh list
exactly when at least one catalog record (hence at least one triangle) has
that class, and every buffer present is nonempty — never a
present-but-empty buffer. -/
theorem no_empty_buffers {data : List Building} {infos : List SurfaceInfo}
    {meshes : List (SurfaceType × Coords)}
    (h : visualize_data data = .ok (infos, meshes)) :
    (∀ t : SurfaceType, (∃ c, (t, c) ∈ meshes) ↔ ∃ r ∈ infos, r.surfaceType = t) ∧
    ∀ t c, (t, c) ∈ meshes → c.i ≠ [] ∧ c.x ≠ [] := by
  refine ⟨fun t => visualize_meshes_class_iff h t, ?_⟩
  intro t c hmem
  obtain ⟨s, _, hinv, _, hmeshes⟩ := visualize_ok_elim h
  subst hmeshes
  obtain ⟨hne, rfl⟩ := meshes_mem_iff.mp hmem
  have h3 := (hinv t).1.1
  constructor
  · intro hi0
    rw [hi0] at h3
    simp only [List.length_nil, Nat.mul_zero] at h3
    have hxnil : (s.getC t).x = [] := List.length_eq_zero.mp h3
    rw [hxnil] at hne
    simp at hne
  · intro hx0
    rw [hx0] at hne
    simp at hne

/-- Witness for C7 at `sampleData`. -/
theorem no_empty_buffers_witness :
    visualize_data sampleData = .ok ([sampleRecord], sampleMeshes) ∧
    ((∀ t : SurfaceType,
        (∃ c, (t, c) ∈ sampleMeshes) ↔ ∃ r ∈ [sampleRecord], r.surfaceType = t) ∧
     ∀ t c, (t, c) ∈ sampleMeshes → c.i ≠ [] ∧ c.x ≠ []) :=
  ⟨run_sample, no_empty_buffers run_sample⟩

/-- C8: a building whose `ehr` field is absent still processes without an
error (given all coordinates are present), and every catalog record produced
for it carries the literal text "Unknown" as building identifier. -/
theorem unknown_building_default {data : List Building} {b : Building}
    (hb : b ∈ data) (hehr : b.ehr = none) (hc : allCoordsPresent data = true) :
    ∃ infos meshes, visualize_data data = .ok (infos, meshes) ∧
      ∀ r ∈ buildingRecords b, r ∈ infos ∧ r.buildingId = "Unknown" := by
  obtain ⟨s, hrun⟩ := visualize_ok_of_allCoords data hc
  refine ⟨_, _, hrun, fun r hr => ⟨?_, ?_⟩⟩
  · rw [visualize_catalog_eq hrun]
    unfold catalogOf
    exact List.mem_flatMap.mpr ⟨b, hb, hr⟩
  · unfold buildingRecords at hr
    obtain ⟨ip, _, rfl⟩ := List.mem_map.mp hr
    show (b.ehr.getD "Unknown") = "Unknown"
    rw [hehr]
    rfl

/-- Witness for C8: `unknownData`, whose single building has no `ehr`. -/
theorem unknown_building_default_witness :
    (unknownBuilding ∈ unknownData ∧ unknownBuilding.ehr = none ∧
     allCoordsPresent unknownData = true) ∧
    ∃ infos meshes, visualize_data unknownData = .ok (infos, meshes) ∧
      ∀ r ∈ buildingRecords unknownBuilding, r ∈ infos ∧ r.buildingId = "Unknown" :=
  ⟨⟨by decide, rfl, by rfl⟩, unknown_building_default (by decide) rfl (by rfl)⟩

/-- C9: a particle missing `nz` is silently classified with `nz = 0`, i.e. as
Wall, and a particle missing `area` gets area 0 in its catalog record; in
both cases the particle is still fully processed — its record is in the
catalog, its triangle reaches the Wall buffer — and no error is raised
(provided every particle has its nine coordinates). -/
theorem missing_nz_area_defaults {data : List Building} {b : Building}
    {idx : Nat} {p : Particle}
    (hb : b ∈ data) (hp : (idx, p) ∈ (b.particles.getD []).enum)
    (hc : allCoordsPresent data = true) :
    ∃ infos meshes, visualize_data data = .ok (infos, meshes) ∧
      recordFor (b.ehr.getD "Unknown") idx p ∈ infos ∧
      (p.nz = none → (recordFor (b.ehr.getD "Unknown") idx p).surfaceType = .Wall) ∧
      (p.nz = none → ∃ c, (SurfaceType.Wall, c) ∈ meshes) ∧
      (p.area = none → (recordFor (b.ehr.getD "Unknown") idx p).area = 0) := by
  obtain ⟨s, hrun⟩ := visualize_ok_of_allCoords data hc
  have hmemInfos : recordFor (b.ehr.getD "Unknown") idx p ∈ s.infos := by
    rw [visualize_catalog_eq hrun]
    unfold catalogOf
    refine List.mem_flatMap.mpr ⟨b, hb, ?_⟩
    unfold buildingRecords
    exact List.mem_map.mpr ⟨(idx, p), hp, rfl⟩
  refine ⟨_, _, hrun, hmemInfos, ?_, ?_, ?_⟩
  · intro hnz
    simp [recordFor, hnz, classify_zero]
  · intro hnz
    refine (visualize_meshes_class_iff hrun SurfaceType.Wall).mpr
      ⟨recordFor (b.ehr.getD "Unknown") idx p, hmemInfos, ?_⟩
    simp [recordFor, hnz, classify_zero]
  · intro ha
    simp [recordFor, ha]

/-- Witness for C9: `unknownData`, whose particle has neither `nz` nor
`area`. -/
theorem missing_nz_area_defaults_witness :
    (unknownBuilding ∈ unknownData ∧
     (0, defaultedParticle) ∈ (unknownBuilding.particles.getD []).enum ∧
     allCoordsPresent unknownData = true ∧
     defaultedParticle.nz = none ∧ defaultedParticle.area = none) ∧
    ∃ infos meshes, visualize_data unknownData = .ok (infos, meshes) ∧
      recordFor (unknownBuilding.ehr.getD "Unknown") 0 defaultedParticle ∈ infos ∧
      (defaultedParticle.nz = none →
        (recordFor (unknownBuilding.ehr.getD "Unknown") 0 defaultedParticle).surfaceType
          = .Wall) ∧
      (defaultedParticle.nz = none → ∃ c, (SurfaceType.Wall, c) ∈ meshes) ∧
      (defaultedParticle.area = none →
        (recordFor (unknownBuilding.ehr.getD "Unknown") 0 defaultedParticle).area = 0) :=
  ⟨⟨by decide, by decide, by rfl, rfl, rfl⟩,
   missing_nz_area_defaults (by decide) (by decide) (by rfl)⟩

/-- C4 counterexample: a particle lacking only the `area` field does NOT
raise — the run succeeds, the particle's catalog record is produced with
area silently defaulted to 0, and its triangle is in the Roof buffer.  This
refutes the claim that a missing `area` (or `nz`) aborts the run with a
DataError. -/
theorem missing_area_no_dataerror_cex :
    noAreaParticle.area = none ∧
    visualize_data noAreaData = .ok ([noAreaRecord], [(SurfaceType.Roof, sampleCoords)]) ∧
    noAreaRecord.area = 0 :=
  ⟨rfl, run_noArea, rfl⟩

/-- C4 (amended): only a missing vertex coordinate aborts the run: if any
particle lacks one of its nine coordinates, `visualize_data` raises (a
`KeyError`, the code's stand-in for DataError) and produces neither catalog
rows nor mesh buffers; missing `nz`/`area` are instead silently defaulted
to 0. -/
theorem missing_coordinate_aborts {data : List Building}
    (h : allCoordsPresent data = false) :
    (∃ e, visualize_data data = .error e) ∧
    ∀ infos meshes, visualize_data data ≠ .ok (infos, meshes) := by
  obtain ⟨e, he⟩ := visualize_error_of_missingCoord data h
  refine ⟨⟨e, he⟩, fun infos meshes hok => ?_⟩
  rw [he] at hok
  exact Except.noConfusion hok

/-- Witness for the amended C4: `noX0Data`, whose particle lacks `x0`. -/
theorem missing_coordinate_aborts_witness :
    allCoordsPresent noX0Data = false ∧
    ((∃ e, visualize_data noX0Data = .error e) ∧
     ∀ infos meshes, visualize_data noX0Data ≠ .ok (infos, meshes)) :=
  ⟨by rfl, missing_coordinate_aborts (by rfl)⟩

/-- C3 counterexample: two records with equal Area keys, in display order
item 0 before item 1.  A descending sort swaps them (Python sorts the pairs
`(key, item)`, so a tie on the key is broken by the item identifier, and
`reverse=True` reverses that tie-break too), refuting the claim that records
with equal keys always retain their relative order. -/
theorem sortby_descending_tie_cex :
    tieRow0.area = tieRow1.area ∧
    sortbyArea tieRows true = [(tieRow1, 1), (tieRow0, 0)] :=
  ⟨rfl, by decide⟩

/-- C3 (amended): `sortby` orders the rows by the pair
(column key, tree item identifier), lexicographically: the result is a
permutation of the input sorted by `pyLe` when ascending and by its reverse
`pyGe` when descending.  Ties on the key alone are therefore broken by item
identifier — insertion order — not by the order just before the call, and a
descending sort reverses the tie order as well. -/
theorem sortby_key_then_id {K : Type} [LinearOrder K] (key : SurfaceInfo → K)
    (rows : List (SurfaceInfo × Nat)) :
    ((sortby key rows false).Perm rows ∧ (sortby key rows true).Perm rows) ∧
    (sortby key rows false).Pairwise (pyLe key) ∧
    (sortby key rows true).Pairwise (pyGe key) :=
  ⟨⟨sortby_false_perm key rows, sortby_true_perm key rows⟩,
   sortby_false_sorted key rows, sortby_true_sorted key rows⟩

/-- C6: sorting by Area compares numerically: an ascending Area sort is
non-decreasing in the numeric area values, and in particular a record with
area 9 is placed before a record with area 10 (string comparison would put
"10" before "9"). -/
theorem sortby_area_numeric (rows : List (SurfaceInfo × Nat)) :
    (sortbyArea rows false).Pairwise (fun a b => a.1.area ≤ b.1.area) ∧
    ∀ (r1 r2 : SurfaceInfo) (i1 i2 : Nat), r1.area = 9 → r2.area = 10 →
      sortbyArea [(r2, i2), (r1, i1)] false = [(r1, i1), (r2, i2)] := by
  constructor
  · refine ((sortby_false_sorted (fun r => r.area) rows).imp ?_)
    intro a b hab
    rcases hab with h | ⟨h, _⟩
    · exact le_of_lt h
    · exact le_of_eq h
  · intro r1 r2 i1 i2 h1 h2
    have hcond : ¬ pyLe (fun r => r.area) (r2, i2) (r1, i1) := by
      rintro (h | ⟨h, _⟩) <;> simp only [h1, h2] at h <;> norm_num at h
    simp [sortbyArea, sortby, List.insertionSort, List.orderedInsert, hcond]

end Renosims
